import Mathlib

/-!
# go-log: subsystem loggers, their derivations and their levels

A shallow embedding of `log.go`: `Logger`, `Warning`, `Warningf`,
`WithStacktrace`, `WithSkip`, `NewLoggerWithLevel` and `NewLogger`.

The process-wide state (the registry maps `loggers` and `levels`, the
cells that `*ZapEventLogger` pointers refer to, and the sequence of
logging calls handed to the zap engine) is threaded explicitly as a
`World`.  A Go panic is the `Except.error` result.  Caller skips are Go
`int`s: integers in [-2^63, 2^63) whose sums wrap modulo 2^64.
-/

namespace GoLog

/-! ## Levels -/

/-- Modelled from the spec: the `LogLevel` type, declared outside `log.go`.
The spec's ordered enumeration Debug < Info < Warn < Error < DPanic <
Panic < Fatal. -/
inductive LogLevel where
  | Debug
  | Info
  | Warn
  | Error
  | DPanic
  | Panic
  | Fatal
deriving DecidableEq, Repr

/-- Ordinal of a level, the value of `zapcore.Level(level)`. -/
def LogLevel.toInt : LogLevel → Int
  | .Debug => -1
  | .Info => 0
  | .Warn => 1
  | .Error => 2
  | .DPanic => 3
  | .Panic => 4
  | .Fatal => 5

/-- Error values returned by the level-control operations. -/
inductive LogError where
  | InvalidLevel (token : String)
deriving DecidableEq, Repr

/-- ASCII lower-casing of a level token. -/
def lowerToken (token : String) : String :=
  String.mk (token.data.map Char.toLower)

/-- Modelled from the spec: the level parser `LevelFromString` (LevelParser
`Parse`), declared outside `log.go`.  Matching is case-insensitive over the
seven canonical names; an empty or unrecognized token fails with
`InvalidLevel` naming the offending token. -/
def LevelFromString (token : String) : Except LogError LogLevel :=
  let t := lowerToken token
  if t = "debug" then .ok .Debug
  else if t = "info" then .ok .Info
  else if t = "warn" then .ok .Warn
  else if t = "error" then .ok .Error
  else if t = "dpanic" then .ok .DPanic
  else if t = "panic" then .ok .Panic
  else if t = "fatal" then .ok .Fatal
  else .error (.InvalidLevel token)

/-! ## Go integers -/

/-- Wrapping of an integer into the range of Go's 64-bit `int`: the
representative of `x` modulo 2^64 that lies in [-2^63, 2^63). -/
def wrapInt (x : Int) : Int :=
  (x + 9223372036854775808) % 18446744073709551616 - 9223372036854775808

/-- Go's `int` on a 64-bit platform: an integer that wrapping leaves fixed. -/
structure GoInt where
  val : Int
  inRange : wrapInt val = val
deriving DecidableEq

/-- Conversion to `int`, wrapping. -/
def GoInt.ofInt (x : Int) : GoInt :=
  ⟨wrapInt x, by unfold wrapInt; omega⟩

/-- Go's `a + b` on `int`: the sum wraps at 64 bits. -/
def GoInt.add (a b : GoInt) : GoInt :=
  GoInt.ofInt (a.val + b.val)

/-- Go's `a - b` on `int`: the difference wraps at 64 bits. -/
def GoInt.sub (a b : GoInt) : GoInt :=
  GoInt.ofInt (a.val - b.val)

/-! ## The zap engine, as far as `log.go` drives it -/

/-- The fields of a `zap.Logger` that `log.go` reads or sets through options:
its name, the registry level entry gating its core (the `zap.AtomicLevel`
installed by the registry, identified by the subsystem name it is stored
under in `levels`), the caller skip (a Go `int`) and the stack-trace
threshold (`none`: no threshold was requested). -/
structure ZapLogger where
  name : String
  core : String
  callerSkip : GoInt
  addStack : Option LogLevel
deriving DecidableEq

/-- The `zap.Option`s used by `log.go`. -/
inductive ZapOption where
  | AddCallerSkip (skip : GoInt)
  | AddStacktrace (lvl : LogLevel)
deriving DecidableEq

/-- Effect of one option on a (cloned) logger: `AddCallerSkip` does
`log.callerSkip += skip`, `AddStacktrace` replaces the stack-trace threshold. -/
def ZapOption.apply (log : ZapLogger) : ZapOption → ZapLogger
  | .AddCallerSkip skip => { log with callerSkip := log.callerSkip.add skip }
  | .AddStacktrace lvl => { log with addStack := some lvl }

/-- `(*zap.Logger).WithOptions`: clones the logger and applies the options in
order; the receiver is left as it was. -/
def ZapLogger.WithOptions (log : ZapLogger) (opts : List ZapOption) : ZapLogger :=
  opts.foldl ZapOption.apply log

/-- A `zap.SugaredLogger`: a wrapper around a base `zap.Logger`. -/
structure SugaredLogger where
  base : ZapLogger
deriving DecidableEq

/-- `(*zap.Logger).Sugar`: clones the logger, adding the two frames of the
sugared wrapper to the caller skip. -/
def ZapLogger.Sugar (log : ZapLogger) : SugaredLogger :=
  ⟨{ log with callerSkip := log.callerSkip.add (GoInt.ofInt 2) }⟩

/-- `(*zap.SugaredLogger).Desugar`: clones the base logger, removing the two
frames of the sugared wrapper from the caller skip. -/
def SugaredLogger.Desugar (s : SugaredLogger) : ZapLogger :=
  { s.base with callerSkip := s.base.callerSkip.sub (GoInt.ofInt 2) }

/-- Payload of a logging call: the variadic form or the format-string form. -/
inductive Message where
  | args (args : List String)
  | format (format : String) (args : List String)
deriving DecidableEq, Repr

/-- One call of a leveled method on a sugared logger, as handed to the engine:
the logger it went through, its level, its payload, and whether the level
filter of the logger's registry entry let it through. -/
structure LogCall where
  logger : SugaredLogger
  level : LogLevel
  msg : Message
  written : Bool
deriving DecidableEq

/-! ## Process state -/

/-- Go panics raised on the paths of `log.go`. -/
inductive Panic where
  | nilDeref
  | err (e : LogError)
deriving DecidableEq, Repr

/-- ZapEventLogger implements the EventLogger and wraps a go-logging Logger. -/
structure ZapEventLogger where
  SugaredLogger : SugaredLogger
  skipLogger : GoLog.SugaredLogger
  system : String
deriving DecidableEq

/-- A `*ZapEventLogger`: the index of a cell; an index with no cell is nil. -/
abbrev Ptr := Nat

/-- Modelled from the spec: the environment configuration snapshot `Config`
returned by `configFromEnv`, declared outside `log.go`: a default level and a
mapping from subsystem name to an override level. -/
structure Config where
  Level : LogLevel
  SubsystemLevels : String → Option LogLevel

/-- Modelled from the spec: `configFromEnv`, declared outside `log.go`.  The
environment is represented by the snapshot it parses to; re-reading it gives
that snapshot again. -/
def configFromEnv (env : Config) : Config := env

/-- Go map assignment `m[k] = v`. -/
def mapSet {α : Type} (m : String → Option α) (k : String) (v : α) : String → Option α :=
  fun k' => if k' = k then some v else m k'

/-- The process state: the registry maps `loggers` and `levels` (both declared
outside `log.go`), the allocated `ZapEventLogger` cells, and the logging calls
made so far. -/
structure World where
  loggers : String → Option SugaredLogger
  levels : String → Option LogLevel
  heap : List ZapEventLogger
  trace : List LogCall

/-- The state of a process that has created no logger yet. -/
def World.empty : World :=
  { loggers := fun _ => none, levels := fun _ => none, heap := [], trace := [] }

/-- Pointer dereference `*l`. -/
def World.deref (w : World) (l : Ptr) : Except Panic ZapEventLogger :=
  match w.heap[l]? with
  | some v => .ok v
  | none => .error .nilDeref

/-- Taking the address of a fresh struct value, `&v`. -/
def World.alloc (w : World) (v : ZapEventLogger) : Ptr × World :=
  (w.heap.length, { w with heap := w.heap ++ [v] })

/-- The level filter: a call at `lvl` through `s` passes when the level entry
gating the core of `s` is at most `lvl`. -/
def World.enabled (w : World) (s : SugaredLogger) (lvl : LogLevel) : Bool :=
  match w.levels s.base.core with
  | some cur => decide (cur.toInt ≤ lvl.toInt)
  | none => false

/-- A leveled call on a sugared logger, recorded with the filter's verdict. -/
def SugaredLogger.log (s : SugaredLogger) (w : World) (lvl : LogLevel) (msg : Message) : World :=
  { w with trace := w.trace ++ [{ logger := s, level := lvl, msg := msg, written := w.enabled s lvl }] }

/-- `(*zap.SugaredLogger).Error`. -/
def SugaredLogger.Error (s : SugaredLogger) (w : World) (args : List String) : World :=
  s.log w .Error (.args args)

/-- `(*zap.SugaredLogger).Warn`. -/
def SugaredLogger.Warn (s : SugaredLogger) (w : World) (args : List String) : World :=
  s.log w .Warn (.args args)

/-- `(*zap.SugaredLogger).Warnf`. -/
def SugaredLogger.Warnf (s : SugaredLogger) (w : World) (format : String) (args : List String) : World :=
  s.log w .Warn (.format format args)

/-! ## The registry operations used by `log.go` -/

/-- Modelled from the spec: the initial level of a registry entry, resolved by
the registry's GetOrCreate (declared outside `log.go`) as
`EnvConfig.subsystemLevels[name]` if present, else `EnvConfig.defaultLevel`. -/
def Config.resolve (cfg : Config) (name : String) : LogLevel :=
  match cfg.SubsystemLevels name with
  | some l => l
  | none => cfg.Level

/-- Modelled from the spec: `getLogger`, the registry's GetOrCreate, declared
outside `log.go`.  Looks up or creates the registry entry of `name` (an entry
created earlier by a level change is kept, a new one gets the resolved initial
level), looks up or creates the logger of `name`, bound to that entry with no
extra caller skip and no stack-trace threshold, and returns the logger. -/
def getLogger (env : Config) (w : World) (name : String) : SugaredLogger × World :=
  let w : World :=
    match w.levels name with
    | some _ => w
    | none => { w with levels := mapSet w.levels name ((configFromEnv env).resolve name) }
  match w.loggers name with
  | some log => (log, w)
  | none =>
    let log := ZapLogger.Sugar
      { name := name, core := name, callerSkip := GoInt.ofInt 0, addStack := none }
    (log, { w with loggers := mapSet w.loggers name log })

/-- Modelled from the spec: `SetLogLevel`, the registry's SetLevel, declared
outside `log.go`.  Parses the token; on success updates the named entry's
level, creating the entry if the name is unknown to the registry; on parse
failure returns `InvalidLevel` and leaves the registry unchanged. -/
def SetLogLevel (w : World) (name : String) (level : String) : Option LogError × World :=
  match LevelFromString level with
  | .error e => (some e, w)
  | .ok lvl => (none, { w with levels := mapSet w.levels name lvl })

/-- The statement `levels[name].SetLevel(zapcore.Level(l))`.  Indexing the map
at a key it does not hold yields the zero `zap.AtomicLevel`, whose `SetLevel`
dereferences a nil pointer. -/
def levelsSetLevel (w : World) (name : String) (l : LogLevel) : Except Panic World :=
  match w.levels name with
  | some _ => .ok { w with levels := mapSet w.levels name l }
  | none => .error .nilDeref

/-! ## `log.go` -/

/-- Logger retrieves an event logger by name. -/
def Logger (env : Config) (w : World) (system : String) : Ptr × World :=
  let (system, w) : String × World :=
    if system.length = 0 then
      let (setuplog, w) := getLogger env w "setup-logger"
      let w := setuplog.Error w ["Missing name parameter"]
      ("undefined", w)
    else (system, w)
  let (logger, w) := getLogger env w system
  let skipLogger := (logger.Desugar.WithOptions [ZapOption.AddCallerSkip (GoInt.ofInt 1)]).Sugar
  w.alloc { system := system, SugaredLogger := logger, skipLogger := skipLogger }

/-- Warning is for compatibility. -/
def Warning (w : World) (logger : Ptr) (args : List String) : Except Panic World :=
  match w.deref logger with
  | .error e => .error e
  | .ok v => .ok (v.skipLogger.Warn w args)

/-- Warningf is for compatibility. -/
def Warningf (w : World) (logger : Ptr) (format : String) (args : List String) : Except Panic World :=
  match w.deref logger with
  | .error e => .error e
  | .ok v => .ok (v.skipLogger.Warnf w format args)

/-- The method `Warn` promoted from the embedded `zap.SugaredLogger`. -/
def Warn (w : World) (logger : Ptr) (args : List String) : Except Panic World :=
  match w.deref logger with
  | .error e => .error e
  | .ok v => .ok (v.SugaredLogger.Warn w args)

/-- The method `Warnf` promoted from the embedded `zap.SugaredLogger`. -/
def Warnf (w : World) (logger : Ptr) (format : String) (args : List String) : Except Panic World :=
  match w.deref logger with
  | .error e => .error e
  | .ok v => .ok (v.SugaredLogger.Warnf w format args)

/-- WithStacktrace: a copy of `*l` whose loggers carry the stack-trace
threshold `level`. -/
def WithStacktrace (w : World) (l : Ptr) (level : LogLevel) : Except Panic (Ptr × World) :=
  match w.deref l with
  | .error e => .error e
  | .ok copyLogger =>
    let copyLogger : ZapEventLogger :=
      { copyLogger with
        SugaredLogger :=
          (copyLogger.SugaredLogger.Desugar.WithOptions [ZapOption.AddStacktrace level]).Sugar }
    let copyLogger : ZapEventLogger :=
      { copyLogger with
        skipLogger :=
          (copyLogger.SugaredLogger.Desugar.WithOptions [ZapOption.AddCallerSkip (GoInt.ofInt 1)]).Sugar }
    .ok (w.alloc copyLogger)

/-- WithSkip returns a new logger that skips the specified number of stack
frames when reporting the line/file. -/
def WithSkip (w : World) (l : Ptr) (skip : GoInt) : Except Panic (Ptr × World) :=
  match w.deref l with
  | .error e => .error e
  | .ok copyLogger =>
    let copyLogger : ZapEventLogger :=
      { copyLogger with
        SugaredLogger :=
          (copyLogger.SugaredLogger.Desugar.WithOptions [ZapOption.AddCallerSkip skip]).Sugar }
    let copyLogger : ZapEventLogger :=
      { copyLogger with
        skipLogger :=
          (copyLogger.SugaredLogger.Desugar.WithOptions [ZapOption.AddCallerSkip (GoInt.ofInt 1)]).Sugar }
    .ok (w.alloc copyLogger)

/-- NewLoggerWithLevel: the logger of `name`, its level set from the
environment override when there is one, else from the token `level`. -/
def NewLoggerWithLevel (env : Config) (w : World) (name : String) (level : String) :
    Except Panic (Ptr × World) :=
  let (log, w) := Logger env w name
  let cfg := configFromEnv env
  match cfg.SubsystemLevels name with
  | some l =>
    match levelsSetLevel w name l with
    | .error e => .error e
    | .ok w => .ok (log, w)
  | none =>
    match SetLogLevel w name level with
    | (some err, _) => .error (.err err)
    | (none, w) => .ok (log, w)

/-- NewLogger: return an logger with info level. -/
def NewLogger (env : Config) (w : World) (name : String) : Except Panic (Ptr × World) :=
  let (l, w) := Logger env w name
  let cfg := configFromEnv env
  match cfg.SubsystemLevels name with
  | some lvl =>
    match levelsSetLevel w name lvl with
    | .error e => .error e
    | .ok w => .ok (l, w)
  | none =>
    let (_, w) := SetLogLevel w name "INFO"
    .ok (l, w)

/-! ## Sequences of derivations -/

/-- One derivation call on a handle. -/
inductive Derivation where
  | stacktrace (level : LogLevel)
  | skip (n : GoInt)
deriving DecidableEq

/-- Runs one derivation call. -/
def Derivation.run (w : World) (l : Ptr) : Derivation → Except Panic (Ptr × World)
  | .stacktrace level => WithStacktrace w l level
  | .skip n => WithSkip w l n

/-- Runs a finite sequence of derivation calls, each applied to the handle
returned by the one before. -/
def derive (w : World) (l : Ptr) : List Derivation → Except Panic (Ptr × World)
  | [] => .ok (l, w)
  | d :: ds =>
    match d.run w l with
    | .error e => .error e
    | .ok (l', w') => derive w' l' ds

/-- The level the registry records for `name` after a call, if the call
returned. -/
def levelAfter (r : Except Panic (Ptr × World)) (name : String) : Option LogLevel :=
  match r with
  | .ok (_, w) => w.levels name
  | .error _ => none

/-- The spec's example environment: default level error, "net" overridden to
debug. -/
def exampleConfig : Config :=
  { Level := .Error, SubsystemLevels := fun n => if n = "net" then some .Debug else none }

/-! ## Values and predicates used in the statements -/

/-- The handle value `Logger` builds around a registry logger. -/
def handleOf (system : String) (logger : SugaredLogger) : ZapEventLogger :=
  { system := system, SugaredLogger := logger,
    skipLogger := (logger.Desugar.WithOptions [ZapOption.AddCallerSkip (GoInt.ofInt 1)]).Sugar }

/-- The value `WithSkip` stores in the cell it allocates. -/
def ZapEventLogger.withSkip (v : ZapEventLogger) (skip : GoInt) : ZapEventLogger :=
  { v with
    SugaredLogger :=
      (v.SugaredLogger.Desugar.WithOptions [ZapOption.AddCallerSkip skip]).Sugar
    skipLogger :=
      (((v.SugaredLogger.Desugar.WithOptions [ZapOption.AddCallerSkip skip]).Sugar).Desugar.WithOptions
        [ZapOption.AddCallerSkip (GoInt.ofInt 1)]).Sugar }

/-- The value `WithStacktrace` stores in the cell it allocates. -/
def ZapEventLogger.withStacktrace (v : ZapEventLogger) (level : LogLevel) : ZapEventLogger :=
  { v with
    SugaredLogger :=
      (v.SugaredLogger.Desugar.WithOptions [ZapOption.AddStacktrace level]).Sugar
    skipLogger :=
      (((v.SugaredLogger.Desugar.WithOptions [ZapOption.AddStacktrace level]).Sugar).Desugar.WithOptions
        [ZapOption.AddCallerSkip (GoInt.ofInt 1)]).Sugar }

/-- A handle is well formed when its skip logger is its main logger with one
more frame of caller skip, as every constructor of `log.go` builds it. -/
def ZapEventLogger.WellFormed (v : ZapEventLogger) : Prop :=
  v.skipLogger = (v.SugaredLogger.Desugar.WithOptions [ZapOption.AddCallerSkip (GoInt.ofInt 1)]).Sugar

instance (v : ZapEventLogger) : Decidable v.WellFormed := by
  unfold ZapEventLogger.WellFormed; infer_instance

/-- A derived handle `v2` of `v` shares the level state of `v`: same system
name, same logger name, both of its loggers gated by the registry entry that
gates the main logger of `v`, so that in every later state the level filter
gives the same verdict through `v2` as through `v`. -/
def SharesLevelState (v v2 : ZapEventLogger) : Prop :=
  v2.system = v.system ∧
  v2.SugaredLogger.base.name = v.SugaredLogger.base.name ∧
  v2.SugaredLogger.base.core = v.SugaredLogger.base.core ∧
  v2.skipLogger.base.core = v.SugaredLogger.base.core ∧
  ∀ (w3 : World) (lvl : LogLevel),
    w3.enabled v2.SugaredLogger lvl = w3.enabled v.SugaredLogger lvl ∧
    w3.enabled v2.skipLogger lvl = w3.enabled v.SugaredLogger lvl

/-- An environment whose override table has an entry under the empty name. -/
def emptyNameConfig : Config :=
  { Level := .Error, SubsystemLevels := fun n => if n = "" then some .Debug else none }

/-- The handle `Logger("net")` returns in a fresh process. -/
def netHandle : ZapEventLogger :=
  handleOf "net"
    (ZapLogger.Sugar { name := "net", core := "net", callerSkip := GoInt.ofInt 0, addStack := none })

/-- The state of a fresh process, under the example environment, after
`Logger("net")`. -/
def netWorld : World := (Logger exampleConfig World.empty "net").2

/-- An environment with default level fatal and no override. -/
def fatalConfig : Config :=
  { Level := .Fatal, SubsystemLevels := fun _ => none }

/-- The largest Go `int`. -/
def maxInt : GoInt := GoInt.ofInt 9223372036854775807

/-- A handle value whose skip logger is a plain copy of its main logger. -/
def plainHandle : ZapEventLogger :=
  { netHandle with skipLogger := netHandle.SugaredLogger }

/-- A process state whose only handle is `plainHandle`. -/
def plainWorld : World :=
  { World.empty with heap := [plainHandle] }

/-- The records emitted so far: the logging calls that passed the level
filter. -/
def World.emitted (w : World) : List LogCall :=
  w.trace.filter (fun c => c.written)

/-! ## Auxiliary facts -/

theorem GoInt.eq_of_val {a b : GoInt} (h : a.val = b.val) : a = b := by
  cases a; cases b; simp only at h; subst h; rfl

theorem GoInt.sub_add_add (s k : GoInt) :
    ((s.sub (GoInt.ofInt 2)).add k).add (GoInt.ofInt 2) = s.add k := by
  apply GoInt.eq_of_val
  simp only [GoInt.add, GoInt.sub, GoInt.ofInt, wrapInt]
  omega

theorem GoInt.add_zero (s : GoInt) : s.add (GoInt.ofInt 0) = s := by
  apply GoInt.eq_of_val
  have hs := s.inRange
  simp only [GoInt.add, GoInt.ofInt, wrapInt] at hs ⊢
  omega

theorem GoInt.add_add (s a b : GoInt) : (s.add a).add b = s.add (a.add b) := by
  apply GoInt.eq_of_val
  simp only [GoInt.add, GoInt.ofInt, wrapInt]
  omega

theorem wrapInt_of_inRange {x : Int} (h1 : -9223372036854775808 ≤ x)
    (h2 : x ≤ 9223372036854775807) : wrapInt x = x := by
  unfold wrapInt
  omega

theorem GoInt.bounds (s : GoInt) :
    -9223372036854775808 ≤ s.val ∧ s.val ≤ 9223372036854775807 := by
  have hs := s.inRange
  unfold wrapInt at hs
  omega

/-- Desugaring, adding a caller skip and sugaring again adds that skip. -/
theorem sugar_addCallerSkip_desugar (s : SugaredLogger) (k : GoInt) :
    (s.Desugar.WithOptions [ZapOption.AddCallerSkip k]).Sugar =
      ⟨{ s.base with callerSkip := s.base.callerSkip.add k }⟩ := by
  simp [SugaredLogger.Desugar, ZapLogger.WithOptions, ZapOption.apply, ZapLogger.Sugar,
    GoInt.sub_add_add]

theorem length_eq_zero_iff (s : String) : s.length = 0 ↔ s = "" := by
  cases s with
  | mk data =>
    cases data with
    | nil => simp [String.length]
    | cons c cs =>
      constructor
      · intro h; simp [String.length] at h
      · intro h; exact absurd (congrArg String.data h) (by simp)

theorem WithSkip_of_get {w : World} {l : Ptr} {v : ZapEventLogger} (skip : GoInt)
    (h : w.heap[l]? = some v) :
    WithSkip w l skip = .ok (w.alloc (v.withSkip skip)) := by
  simp [WithSkip, World.deref, h, ZapEventLogger.withSkip]

theorem WithStacktrace_of_get {w : World} {l : Ptr} {v : ZapEventLogger} (level : LogLevel)
    (h : w.heap[l]? = some v) :
    WithStacktrace w l level = .ok (w.alloc (v.withStacktrace level)) := by
  simp [WithStacktrace, World.deref, h, ZapEventLogger.withStacktrace]

theorem alloc_get (w : World) (v : ZapEventLogger) :
    (w.alloc v).2.heap[(w.alloc v).1]? = some v := by
  simp [World.alloc]

theorem get_append_new (h : List ZapEventLogger) (v : ZapEventLogger) :
    (h ++ [v])[h.length]? = some v := by
  simp

theorem get_append_old {h : List ZapEventLogger} {p : Nat} {u : ZapEventLogger}
    (v : ZapEventLogger) (hp : h[p]? = some u) : (h ++ [v])[p]? = some u := by
  have hlt : p < h.length := by
    rcases Nat.lt_or_ge p h.length with hlt | hge
    · exact hlt
    · have : h[p]? = none := by simp [hge]
      rw [this] at hp; cases hp
  rw [List.getElem?_append_left hlt]
  exact hp

/-- What one derivation call does: it returns, the cell it returns is new and
well formed, it differs from the argument's cell in the derivation parameters
of its main logger only, and every cell that existed is left as it was. -/
theorem run_spec (d : Derivation) {w : World} {l : Ptr} {v : ZapEventLogger}
    (h : w.heap[l]? = some v) :
    ∃ (l2 : Ptr) (w2 : World) (v2 : ZapEventLogger), d.run w l = .ok (l2, w2) ∧ w2.heap[l2]? = some v2 ∧
      v2.WellFormed ∧ v2.system = v.system ∧
      v2.SugaredLogger.base.name = v.SugaredLogger.base.name ∧
      v2.SugaredLogger.base.core = v.SugaredLogger.base.core ∧
      w2.loggers = w.loggers ∧ w2.levels = w.levels ∧ w2.trace = w.trace ∧
      (∀ (p : Ptr) (u : ZapEventLogger), w.heap[p]? = some u → w2.heap[p]? = some u) ∧
      w.heap[l2]? = none := by
  cases d with
  | stacktrace level =>
    refine ⟨_, _, _, WithStacktrace_of_get level h, alloc_get _ _, ?_, rfl, rfl, rfl,
      rfl, rfl, rfl, ?_, by simp [World.alloc]⟩
    · simp [ZapEventLogger.WellFormed, ZapEventLogger.withStacktrace]
    · intro p u hp; exact get_append_old _ hp
  | skip n =>
    refine ⟨_, _, _, WithSkip_of_get n h, alloc_get _ _, ?_, rfl, rfl, rfl,
      rfl, rfl, rfl, ?_, by simp [World.alloc]⟩
    · simp [ZapEventLogger.WellFormed, ZapEventLogger.withSkip]
    · intro p u hp; exact get_append_old _ hp

/-- What a sequence of derivation calls does, by induction on the sequence. -/
theorem derive_spec (ds : List Derivation) : ∀ {w : World} {l : Ptr} {v : ZapEventLogger},
    w.heap[l]? = some v →
    ∃ (l2 : Ptr) (w2 : World) (v2 : ZapEventLogger), derive w l ds = .ok (l2, w2) ∧ w2.heap[l2]? = some v2 ∧
      (v.WellFormed → v2.WellFormed) ∧ (ds ≠ [] → v2.WellFormed) ∧ v2.system = v.system ∧
      v2.SugaredLogger.base.name = v.SugaredLogger.base.name ∧
      v2.SugaredLogger.base.core = v.SugaredLogger.base.core ∧
      w2.loggers = w.loggers ∧ w2.levels = w.levels ∧ w2.trace = w.trace ∧
      (∀ (p : Ptr) (u : ZapEventLogger), w.heap[p]? = some u → w2.heap[p]? = some u) := by
  induction ds with
  | nil =>
    intro w l v h
    exact ⟨l, w, v, rfl, h, id, fun hne => absurd rfl hne, rfl, rfl, rfl, rfl, rfl, rfl,
      fun _ _ hp => hp⟩
  | cons d ds ih =>
    intro w l v h
    obtain ⟨l1, w1, v1, hrun, hget1, hwf1, hsys1, hname1, hcore1, hlog1, hlev1, htr1, hold1, _⟩ :=
      run_spec d h
    obtain ⟨l2, w2, v2, hder, hget2, hwf2, _, hsys2, hname2, hcore2, hlog2, hlev2, htr2, hold2⟩ :=
      ih hget1
    refine ⟨l2, w2, v2, ?_, hget2, fun _ => hwf2 hwf1, fun _ => hwf2 hwf1, hsys2.trans hsys1,
      hname2.trans hname1, hcore2.trans hcore1, hlog2.trans hlog1, hlev2.trans hlev1,
      htr2.trans htr1, fun p u hp => hold2 p u (hold1 p u hp)⟩
    simp [derive, hrun, hder]

theorem WellFormed.fields {v : ZapEventLogger} (h : v.WellFormed) :
    v.skipLogger.base.name = v.SugaredLogger.base.name ∧
    v.skipLogger.base.core = v.SugaredLogger.base.core ∧
    v.skipLogger.base.addStack = v.SugaredLogger.base.addStack ∧
    v.skipLogger.base.callerSkip = v.SugaredLogger.base.callerSkip.add (GoInt.ofInt 1) := by
  unfold ZapEventLogger.WellFormed at h
  rw [h, sugar_addCallerSkip_desugar]
  exact ⟨rfl, rfl, rfl, rfl⟩

theorem enabled_of_core (w : World) {s t : SugaredLogger} (h : s.base.core = t.base.core)
    (lvl : LogLevel) : w.enabled s lvl = w.enabled t lvl := by
  simp [World.enabled, h]

theorem heap_length_ne {h : List ZapEventLogger} {p : Nat} {u : ZapEventLogger}
    (hp : h[p]? = some u) : h.length ≠ p := by
  intro hlen
  have : h[p]? = none := by simp [hlen]
  rw [this] at hp; cases hp

theorem sharesLevelState_of {v v2 : ZapEventLogger} (hwf : v2.WellFormed)
    (hsys : v2.system = v.system)
    (hname : v2.SugaredLogger.base.name = v.SugaredLogger.base.name)
    (hcore : v2.SugaredLogger.base.core = v.SugaredLogger.base.core) :
    SharesLevelState v v2 := by
  have hskip : v2.skipLogger.base.core = v.SugaredLogger.base.core :=
    (WellFormed.fields hwf).2.1.trans hcore
  exact ⟨hsys, hname, hcore, hskip, fun w3 lvl =>
    ⟨enabled_of_core w3 hcore lvl, enabled_of_core w3 hskip lvl⟩⟩

theorem getLogger_spec (env : Config) (w : World) (name : String) :
    (getLogger env w name).2.loggers name = some (getLogger env w name).1 ∧
    (getLogger env w name).2.levels name =
      some (match w.levels name with
        | some cur => cur
        | none => env.resolve name) ∧
    (getLogger env w name).2.heap = w.heap ∧
    (getLogger env w name).2.trace = w.trace ∧
    (∀ k : String, k ≠ name → (getLogger env w name).2.levels k = w.levels k) ∧
    (∀ k : String, k ≠ name → (getLogger env w name).2.loggers k = w.loggers k) := by
  unfold getLogger configFromEnv
  cases hlev : w.levels name <;> cases hlog : w.loggers name <;>
    simp +contextual [hlev, hlog, mapSet]

theorem handleOf_wellFormed (system : String) (logger : SugaredLogger) :
    (handleOf system logger).WellFormed := rfl

theorem Logger_nonempty (env : Config) (w : World) {name : String} (h : name ≠ "") :
    Logger env w name =
      (getLogger env w name).2.alloc (handleOf name (getLogger env w name).1) := by
  have hlen : ¬ name.length = 0 := fun hl => h ((length_eq_zero_iff name).1 hl)
  simp [Logger, hlen, handleOf]

theorem Logger_empty (env : Config) (w : World) :
    Logger env w "" =
      (getLogger env
        ((getLogger env w "setup-logger").1.Error (getLogger env w "setup-logger").2
          ["Missing name parameter"]) "undefined").2.alloc
        (handleOf "undefined" (getLogger env
          ((getLogger env w "setup-logger").1.Error (getLogger env w "setup-logger").2
            ["Missing name parameter"]) "undefined").1) := by
  simp [Logger, handleOf]

theorem getLogger_of_eq {env : Config} {w : World} {name : String} {log : SugaredLogger}
    {w2 : World} (hg : getLogger env w name = (log, w2)) :
    w2.loggers name = some log ∧
    (∃ cur : LogLevel, w2.levels name = some cur) ∧
    w2.heap = w.heap ∧ w2.trace = w.trace ∧
    (∀ k : String, k ≠ name → w2.levels k = w.levels k) ∧
    (∀ k : String, k ≠ name → w2.loggers k = w.loggers k) := by
  have hs := getLogger_spec env w name
  rw [hg] at hs
  obtain ⟨h1, h2, h3, h4, h5, h6⟩ := hs
  exact ⟨h1, ⟨_, h2⟩, h3, h4, h5, h6⟩

theorem Logger_empty_of {env : Config} {w : World} {setuplog logger : SugaredLogger}
    {w0 w2 : World} (h0 : getLogger env w "setup-logger" = (setuplog, w0))
    (h1 : getLogger env (setuplog.Error w0 ["Missing name parameter"]) "undefined" =
      (logger, w2)) :
    Logger env w "" = w2.alloc (handleOf "undefined" logger) := by
  rw [Logger_empty, h0]
  simp only
  rw [h1]

theorem Logger_nonempty_of {env : Config} {w : World} {name : String} {logger : SugaredLogger}
    {w2 : World} (h : name ≠ "") (h1 : getLogger env w name = (logger, w2)) :
    Logger env w name = w2.alloc (handleOf name logger) := by
  rw [Logger_nonempty env w h, h1]

/-- The handle `Logger` returns is live, new and well formed, and it wraps the
logger the registry holds under the handle's system name. -/
theorem Logger_handle (env : Config) (w : World) (name : String) :
    ∃ v : ZapEventLogger,
      (Logger env w name).2.heap[(Logger env w name).1]? = some v ∧
      w.heap[(Logger env w name).1]? = none ∧
      v.WellFormed ∧
      v.system = (if name = "" then "undefined" else name) ∧
      (Logger env w name).2.loggers v.system = some v.SugaredLogger ∧
      (∃ cur : LogLevel, (Logger env w name).2.levels v.system = some cur) := by
  by_cases h : name = ""
  · subst h
    rcases h0 : getLogger env w "setup-logger" with ⟨setuplog, w0⟩
    rcases h1 : getLogger env (setuplog.Error w0 ["Missing name parameter"]) "undefined" with
      ⟨logger, w2⟩
    obtain ⟨_, _, hheap0, _, _, _⟩ := getLogger_of_eq h0
    obtain ⟨hlog, hlev, hheap, _, _, _⟩ := getLogger_of_eq h1
    have hh : w2.heap = w.heap := by
      rw [hheap]; exact hheap0
    rw [Logger_empty_of h0 h1]
    refine ⟨_, get_append_new _ _, ?_, handleOf_wellFormed _ _, by simp [handleOf], ?_, ?_⟩
    · simp [World.alloc, hh]
    · simpa [World.alloc, handleOf] using hlog
    · simpa [World.alloc, handleOf] using hlev
  · rcases h1 : getLogger env w name with ⟨logger, w2⟩
    obtain ⟨hlog, hlev, hheap, _, _, _⟩ := getLogger_of_eq h1
    rw [Logger_nonempty_of h h1]
    refine ⟨_, get_append_new _ _, ?_, handleOf_wellFormed _ _, by simp [handleOf, h], ?_, ?_⟩
    · simp [World.alloc, hheap]
    · simpa [World.alloc, handleOf] using hlog
    · simpa [World.alloc, handleOf] using hlev

/-- After `Logger(name)` with a non-empty name the registry has a level entry
for `name`. -/
theorem Logger_levels_nonempty (env : Config) (w : World) {name : String} (h : name ≠ "") :
    ∃ cur : LogLevel, (Logger env w name).2.levels name = some cur := by
  obtain ⟨v, _, _, _, hsys, _, hlev⟩ := Logger_handle env w name
  rw [hsys, if_neg h] at hlev
  exact hlev

theorem NewLogger_of_override {env : Config} {w : World} {name : String} {lvl cur : LogLevel}
    (hov : env.SubsystemLevels name = some lvl)
    (hcur : (Logger env w name).2.levels name = some cur) :
    NewLogger env w name = .ok ((Logger env w name).1,
      { (Logger env w name).2 with levels := mapSet (Logger env w name).2.levels name lvl }) := by
  rcases hL : Logger env w name with ⟨l, w1⟩
  rw [hL] at hcur
  simp only at hcur
  simp [NewLogger, hL, configFromEnv, hov, levelsSetLevel, hcur]

theorem NewLogger_of_no_override {env : Config} {w : World} {name : String}
    (hov : env.SubsystemLevels name = none) :
    NewLogger env w name = .ok ((Logger env w name).1,
      { (Logger env w name).2 with
        levels := mapSet (Logger env w name).2.levels name LogLevel.Info }) := by
  rcases hL : Logger env w name with ⟨l, w1⟩
  have hparse : LevelFromString "INFO" = .ok LogLevel.Info := rfl
  simp [NewLogger, hL, configFromEnv, hov, SetLogLevel, hparse]

theorem NewLoggerWithLevel_of_override {env : Config} {w : World} {name : String}
    {lvl cur : LogLevel} (token : String)
    (hov : env.SubsystemLevels name = some lvl)
    (hcur : (Logger env w name).2.levels name = some cur) :
    NewLoggerWithLevel env w name token = .ok ((Logger env w name).1,
      { (Logger env w name).2 with levels := mapSet (Logger env w name).2.levels name lvl }) := by
  rcases hL : Logger env w name with ⟨l, w1⟩
  rw [hL] at hcur
  simp only at hcur
  simp [NewLoggerWithLevel, hL, configFromEnv, hov, levelsSetLevel, hcur]

theorem NewLoggerWithLevel_of_parsed {env : Config} {w : World} {name token : String}
    {lvl : LogLevel} (hov : env.SubsystemLevels name = none)
    (hparse : LevelFromString token = .ok lvl) :
    NewLoggerWithLevel env w name token = .ok ((Logger env w name).1,
      { (Logger env w name).2 with levels := mapSet (Logger env w name).2.levels name lvl }) := by
  rcases hL : Logger env w name with ⟨l, w1⟩
  simp [NewLoggerWithLevel, hL, configFromEnv, hov, SetLogLevel, hparse]

theorem NewLoggerWithLevel_of_rejected {env : Config} {w : World} {name token : String}
    {e : LogError} (hov : env.SubsystemLevels name = none)
    (hparse : LevelFromString token = .error e) :
    NewLoggerWithLevel env w name token = .error (Panic.err e) := by
  rcases hL : Logger env w name with ⟨l, w1⟩
  simp [NewLoggerWithLevel, hL, configFromEnv, hov, SetLogLevel, hparse]

/-! ## `Logger` -/

/-- The logger `getLogger` returns is the one the registry held, or a new one
named after and gated by the entry of `name`; the level of that entry is the
one held, or the resolved initial level. -/
theorem getLogger_logger {env : Config} {w : World} {name : String} {log : SugaredLogger}
    {w2 : World} (hg : getLogger env w name = (log, w2)) :
    (match w.loggers name with
      | some held => log = held
      | none => log.base.name = name ∧ log.base.core = name) ∧
    w2.levels name = some (match w.levels name with
      | some cur => cur
      | none => env.resolve name) := by
  have hs := (getLogger_spec env w name).2.1
  rw [hg] at hs
  refine ⟨?_, hs⟩
  unfold getLogger configFromEnv at hg
  cases hlev : w.levels name <;> cases hlog : w.loggers name <;>
    simp [hlev, hlog] at hg <;> simp [← hg.1, ZapLogger.Sugar]

/-- C4 (amended): for every string `name`, `Logger(name)` returns a live, new
handle (it has no failing path): its system field is `name` when `name` is
non-empty and "undefined" when it is empty, and its main logger is the one the
registry holds under that system name.  For a non-empty name no logging call
is made.  For the empty name exactly one call is made, at Error level with the
payload "Missing name parameter", through the logger the registry holds for
"setup-logger", and the logger for "undefined" is fetched in the state that
follows that call; the call emits one record when the level of the registry
entry gating the setup logger is Error or lower at that moment, and no record
otherwise. -/
theorem Logger_returns_handle (env : Config) (w : World) (name : String) :
    ∃ v : ZapEventLogger,
      (Logger env w name).2.heap[(Logger env w name).1]? = some v ∧
      w.heap[(Logger env w name).1]? = none ∧
      v.system = (if name = "" then "undefined" else name) ∧
      (Logger env w name).2.loggers v.system = some v.SugaredLogger ∧
      (if name = "" then
        ∃ (setuplog : SugaredLogger) (w0 : World) (written : Bool),
          getLogger env w "setup-logger" = (setuplog, w0) ∧
          (Logger env w name).2.loggers "setup-logger" = some setuplog ∧
          (match w.loggers "setup-logger" with
            | some held => setuplog = held
            | none => setuplog.base.name = "setup-logger" ∧
                setuplog.base.core = "setup-logger") ∧
          w0.levels "setup-logger" = some (match w.levels "setup-logger" with
            | some cur => cur
            | none => env.resolve "setup-logger") ∧
          written = (match w0.levels setuplog.base.core with
            | some cur => decide (cur.toInt ≤ LogLevel.Error.toInt)
            | none => false) ∧
          (Logger env w name).2.trace = w.trace ++
            [{ logger := setuplog, level := LogLevel.Error,
               msg := Message.args ["Missing name parameter"],
               written := written }] ∧
          (Logger env w name).2.emitted = w.emitted ++
            (if written = true then
              [{ logger := setuplog, level := LogLevel.Error,
                 msg := Message.args ["Missing name parameter"],
                 written := true }]
            else []) ∧
          v.SugaredLogger =
            (getLogger env (setuplog.Error w0 ["Missing name parameter"]) "undefined").1
      else (Logger env w name).2.trace = w.trace ∧
        (Logger env w name).2.emitted = w.emitted) := by
  obtain ⟨v, hget, hfresh, _, hsys, hlog, _⟩ := Logger_handle env w name
  refine ⟨v, hget, hfresh, hsys, hlog, ?_⟩
  by_cases h : name = ""
  · subst h
    simp only [if_true]
    rcases h0 : getLogger env w "setup-logger" with ⟨setuplog, w0⟩
    rcases h1 : getLogger env (setuplog.Error w0 ["Missing name parameter"]) "undefined" with
      ⟨logger, w2⟩
    obtain ⟨hsetup, _, _, htr0, _, _⟩ := getLogger_of_eq h0
    obtain ⟨hheld, hlev0⟩ := getLogger_logger h0
    obtain ⟨_, _, _, htr, _, hother⟩ := getLogger_of_eq h1
    rw [Logger_empty_of h0 h1] at hget ⊢
    have htrace : (w2.alloc (handleOf "undefined" logger)).2.trace = w.trace ++
        [{ logger := setuplog, level := LogLevel.Error,
           msg := Message.args ["Missing name parameter"],
           written := w0.enabled setuplog LogLevel.Error }] := by
      simp [World.alloc, htr, SugaredLogger.Error, SugaredLogger.log, htr0]
    refine ⟨setuplog, w0, w0.enabled setuplog LogLevel.Error, rfl, ?_, hheld, hlev0, rfl,
      htrace, ?_, ?_⟩
    · have := hother "setup-logger" (by decide)
      simpa [World.alloc, SugaredLogger.Error, SugaredLogger.log, hsetup] using this
    · unfold World.emitted
      rw [htrace, List.filter_append]
      cases hw : w0.enabled setuplog LogLevel.Error <;> simp [List.filter, hw]
    · simp only [World.alloc] at hget
      rw [get_append_new] at hget
      cases hget
      rw [h1]
      rfl
  · simp only [h, if_false]
    rcases h1 : getLogger env w name with ⟨logger, w2⟩
    obtain ⟨_, _, _, htr, _, _⟩ := getLogger_of_eq h1
    rw [Logger_nonempty_of h h1]
    simp [World.alloc, htr, World.emitted]

/-- C4 fails as stated: in a fresh process under an environment with default
level fatal, `Logger("")` makes its one call through the setup logger, but the
level filter drops it and no record is emitted. -/
theorem Logger_empty_name_record_filtered :
    (Logger fatalConfig World.empty "").2.trace.length = 1 ∧
    (Logger fatalConfig World.empty "").2.levels "setup-logger" = some LogLevel.Fatal ∧
    (Logger fatalConfig World.empty "").2.emitted = [] := by
  decide

/-! ## Derivations -/

/-- C5: for every live handle `l`, every level and every Go `int` `n`, the
handles returned by `WithStacktrace(l, level)` and `WithSkip(l, n)`, and every
handle obtained from `l` by a non-empty sequence of such calls, keep the system
name of `l` and stay bound to the registry level entry of `l`, so the level
filter gives the same verdict through them as through `l` in every later
state; the calls themselves leave the registry levels untouched. -/
theorem derived_handles_share_level_state (w : World) (l : Ptr) (v : ZapEventLogger)
    (h : w.heap[l]? = some v) (level : LogLevel) (n : GoInt) (d : Derivation)
    (ds : List Derivation) :
    (∃ (l2 : Ptr) (w2 : World) (v2 : ZapEventLogger),
      WithStacktrace w l level = .ok (l2, w2) ∧ w2.heap[l2]? = some v2 ∧
      SharesLevelState v v2 ∧ w2.levels = w.levels) ∧
    (∃ (l2 : Ptr) (w2 : World) (v2 : ZapEventLogger),
      WithSkip w l n = .ok (l2, w2) ∧ w2.heap[l2]? = some v2 ∧
      SharesLevelState v v2 ∧ w2.levels = w.levels) ∧
    (∃ (l2 : Ptr) (w2 : World) (v2 : ZapEventLogger),
      derive w l (d :: ds) = .ok (l2, w2) ∧ w2.heap[l2]? = some v2 ∧
      SharesLevelState v v2 ∧ w2.levels = w.levels) := by
  refine ⟨?_, ?_, ?_⟩
  · obtain ⟨l2, w2, v2, hrun, hget, hwf, hsys, hname, hcore, _, hlev, _, _, _⟩ :=
      run_spec (.stacktrace level) h
    exact ⟨l2, w2, v2, hrun, hget, sharesLevelState_of hwf hsys hname hcore, hlev⟩
  · obtain ⟨l2, w2, v2, hrun, hget, hwf, hsys, hname, hcore, _, hlev, _, _, _⟩ :=
      run_spec (.skip n) h
    exact ⟨l2, w2, v2, hrun, hget, sharesLevelState_of hwf hsys hname hcore, hlev⟩
  · obtain ⟨l2, w2, v2, hrun, hget, _, hwf, hsys, hname, hcore, _, hlev, _, _⟩ :=
      derive_spec (d :: ds) h
    exact ⟨l2, w2, v2, hrun, hget,
      sharesLevelState_of (hwf (by simp)) hsys hname hcore, hlev⟩

theorem derived_handles_share_level_state_witness :
    netWorld.heap[0]? = some netHandle ∧
    (∃ (l2 : Ptr) (w2 : World) (v2 : ZapEventLogger),
      WithStacktrace netWorld 0 LogLevel.Error = .ok (l2, w2) ∧ w2.heap[l2]? = some v2 ∧
      SharesLevelState netHandle v2 ∧ w2.levels = netWorld.levels) ∧
    (∃ (l2 : Ptr) (w2 : World) (v2 : ZapEventLogger),
      WithSkip netWorld 0 (GoInt.ofInt 3) = .ok (l2, w2) ∧ w2.heap[l2]? = some v2 ∧
      SharesLevelState netHandle v2 ∧ w2.levels = netWorld.levels) :=
  ⟨rfl,
    (derived_handles_share_level_state netWorld 0 netHandle rfl LogLevel.Error (GoInt.ofInt 3)
      (Derivation.skip (GoInt.ofInt 1)) []).1,
    (derived_handles_share_level_state netWorld 0 netHandle rfl LogLevel.Error (GoInt.ofInt 3)
      (Derivation.skip (GoInt.ofInt 1)) []).2.1⟩

/-- C6: `WithStacktrace(l, level)` and `WithSkip(l, n)` do not mutate their
argument: for every live handle `l`, each call returns a handle other than
`l`, and after the call, and after any further sequence of derivations applied
to the returned handle, the cell of `l` (system, main logger and skip logger,
with their caller skips and stack-trace thresholds) holds the value it held
before. -/
theorem derivations_do_not_mutate (w : World) (l : Ptr) (v : ZapEventLogger)
    (h : w.heap[l]? = some v) (level : LogLevel) (n : GoInt) (ds : List Derivation) :
    (∃ (l2 : Ptr) (w2 : World), WithStacktrace w l level = .ok (l2, w2) ∧ l2 ≠ l ∧
      w2.heap[l]? = some v ∧
      ∃ (l3 : Ptr) (w3 : World), derive w2 l2 ds = .ok (l3, w3) ∧ w3.heap[l]? = some v) ∧
    (∃ (l2 : Ptr) (w2 : World), WithSkip w l n = .ok (l2, w2) ∧ l2 ≠ l ∧
      w2.heap[l]? = some v ∧
      ∃ (l3 : Ptr) (w3 : World), derive w2 l2 ds = .ok (l3, w3) ∧ w3.heap[l]? = some v) := by
  have key : ∀ d : Derivation, ∃ (l2 : Ptr) (w2 : World), d.run w l = .ok (l2, w2) ∧ l2 ≠ l ∧
      w2.heap[l]? = some v ∧
      ∃ (l3 : Ptr) (w3 : World), derive w2 l2 ds = .ok (l3, w3) ∧ w3.heap[l]? = some v := by
    intro d
    obtain ⟨l2, w2, v2, hrun, hget, _, _, _, _, _, _, _, hold, hfresh⟩ := run_spec d h
    obtain ⟨l3, w3, v3, hder, _, _, _, _, _, _, _, _, _, hold3⟩ := derive_spec ds hget
    refine ⟨l2, w2, hrun, ?_, hold l v h, l3, w3, hder, hold3 l v (hold l v h)⟩
    intro heq
    rw [heq, h] at hfresh
    cases hfresh
  exact ⟨key (.stacktrace level), key (.skip n)⟩

theorem derivations_do_not_mutate_witness :
    netWorld.heap[0]? = some netHandle ∧
    ∃ (l2 : Ptr) (w2 : World), WithSkip netWorld 0 (GoInt.ofInt 3) = .ok (l2, w2) ∧ l2 ≠ 0 ∧
      w2.heap[0]? = some netHandle ∧
      ∃ (l3 : Ptr) (w3 : World),
        derive w2 l2 [Derivation.stacktrace LogLevel.Warn, Derivation.skip (GoInt.ofInt 2)] =
          .ok (l3, w3) ∧
        w3.heap[0]? = some netHandle :=
  ⟨rfl,
    (derivations_do_not_mutate netWorld 0 netHandle rfl LogLevel.Error (GoInt.ofInt 3)
      [Derivation.stacktrace LogLevel.Warn, Derivation.skip (GoInt.ofInt 2)]).2⟩

/-- C7 (amended): for every handle reachable from `Logger(name)` by a finite
sequence of `WithStacktrace` and `WithSkip` calls, the skip logger has the
name, the level binding and the stack-trace threshold of the embedded main
logger and a caller skip one greater in Go's wrapping `int` arithmetic:
exactly one greater unless the main logger's caller skip is the largest `int`,
where it wraps to the smallest.  `Warning` and `Warningf` make through it, at
Warn level, the call that `Warn` and `Warnf` make through the main logger,
with the same payload and the same verdict of the level filter. -/
theorem Warning_compensates_alias_frame (env : Config) (w : World) (name : String)
    (ds : List Derivation) (args : List String) (format : String) :
    ∃ (l2 : Ptr) (w2 : World) (v2 : ZapEventLogger),
      derive (Logger env w name).2 (Logger env w name).1 ds = .ok (l2, w2) ∧
      w2.heap[l2]? = some v2 ∧
      v2.skipLogger.base.name = v2.SugaredLogger.base.name ∧
      v2.skipLogger.base.core = v2.SugaredLogger.base.core ∧
      v2.skipLogger.base.addStack = v2.SugaredLogger.base.addStack ∧
      v2.skipLogger.base.callerSkip.val = wrapInt (v2.SugaredLogger.base.callerSkip.val + 1) ∧
      v2.skipLogger.base.callerSkip.val =
        (if v2.SugaredLogger.base.callerSkip.val = 9223372036854775807 then
          -9223372036854775808
        else v2.SugaredLogger.base.callerSkip.val + 1) ∧
      Warning w2 l2 args = .ok { w2 with trace := w2.trace ++
        [{ logger := v2.skipLogger, level := LogLevel.Warn, msg := Message.args args,
           written := w2.enabled v2.SugaredLogger LogLevel.Warn }] } ∧
      Warn w2 l2 args = .ok { w2 with trace := w2.trace ++
        [{ logger := v2.SugaredLogger, level := LogLevel.Warn, msg := Message.args args,
           written := w2.enabled v2.SugaredLogger LogLevel.Warn }] } ∧
      Warningf w2 l2 format args = .ok { w2 with trace := w2.trace ++
        [{ logger := v2.skipLogger, level := LogLevel.Warn, msg := Message.format format args,
           written := w2.enabled v2.SugaredLogger LogLevel.Warn }] } ∧
      Warnf w2 l2 format args = .ok { w2 with trace := w2.trace ++
        [{ logger := v2.SugaredLogger, level := LogLevel.Warn, msg := Message.format format args,
           written := w2.enabled v2.SugaredLogger LogLevel.Warn }] } := by
  obtain ⟨v, hget, _, hwf, _, _, _⟩ := Logger_handle env w name
  obtain ⟨l2, w2, v2, hder, hget2, hwf2, _, _, _, _, _, _, _, _⟩ := derive_spec ds hget
  obtain ⟨hname, hcore, hstack, hskip⟩ := WellFormed.fields (hwf2 hwf)
  have hen := enabled_of_core w2 hcore LogLevel.Warn
  have hval : v2.skipLogger.base.callerSkip.val =
      wrapInt (v2.SugaredLogger.base.callerSkip.val + 1) := by
    rw [hskip]; rfl
  refine ⟨l2, w2, v2, hder, hget2, hname, hcore, hstack, hval, ?_, ?_, ?_, ?_, ?_⟩
  · rw [hval]
    have hb := GoInt.bounds v2.SugaredLogger.base.callerSkip
    unfold wrapInt
    split <;> omega
  · simp [Warning, World.deref, hget2, SugaredLogger.Warn, SugaredLogger.log, hen]
  · simp [Warn, World.deref, hget2, SugaredLogger.Warn, SugaredLogger.log]
  · simp [Warningf, World.deref, hget2, SugaredLogger.Warnf, SugaredLogger.log, hen]
  · simp [Warnf, World.deref, hget2, SugaredLogger.Warnf, SugaredLogger.log]

/-- C7 fails as stated: the handle `WithSkip(Logger("net"), 9223372036854775805)`
has a main logger whose caller skip is the largest `int`, and its skip logger's
caller skip is the smallest `int`, not one greater. -/
theorem skipLogger_wraps_at_largest_skip :
    ∃ (l2 : Ptr) (w2 : World) (v2 : ZapEventLogger),
      derive (Logger exampleConfig World.empty "net").2
        (Logger exampleConfig World.empty "net").1
        [Derivation.skip (GoInt.ofInt 9223372036854775805)] = .ok (l2, w2) ∧
      w2.heap[l2]? = some v2 ∧
      v2.SugaredLogger.base.callerSkip.val = 9223372036854775807 ∧
      v2.skipLogger.base.callerSkip.val = -9223372036854775808 ∧
      v2.skipLogger.base.callerSkip.val ≠ v2.SugaredLogger.base.callerSkip.val + 1 :=
  ⟨_, _, _, rfl, rfl, by decide, by decide, by decide⟩

/-- C8 (amended): for every live handle `l` and every Go `int` `n`,
`WithSkip(l, n)` returns a new handle whose main logger has the caller skip of
the main logger of `l` plus `n` in Go's wrapping `int` arithmetic (exactly
plus `n` when that sum is within the `int` range) and the same stack-trace
threshold, its skip logger one frame more; `WithSkip(l, 0)` has the system and
main logger of `l`, and is equal to `l` in every field when the skip logger of
`l` is its main logger with one more frame, as it is for every handle built by
`Logger`, `WithStacktrace` and `WithSkip`; and `WithSkip(WithSkip(l, a), b)`
holds the same value as `WithSkip(l, a + b)`, the sum taken in Go's `int`. -/
theorem WithSkip_adds_to_caller_skip (w : World) (l : Ptr) (v : ZapEventLogger)
    (h : w.heap[l]? = some v) (n a b : GoInt) :
    (∃ (l2 : Ptr) (w2 : World) (v2 : ZapEventLogger),
      WithSkip w l n = .ok (l2, w2) ∧ w2.heap[l2]? = some v2 ∧ l2 ≠ l ∧
      v2.SugaredLogger.base.callerSkip.val =
        wrapInt (v.SugaredLogger.base.callerSkip.val + n.val) ∧
      (-9223372036854775808 ≤ v.SugaredLogger.base.callerSkip.val + n.val ∧
        v.SugaredLogger.base.callerSkip.val + n.val ≤ 9223372036854775807 →
        v2.SugaredLogger.base.callerSkip.val = v.SugaredLogger.base.callerSkip.val + n.val) ∧
      v2.SugaredLogger.base.addStack = v.SugaredLogger.base.addStack ∧
      v2.skipLogger.base.callerSkip.val =
        wrapInt (v2.SugaredLogger.base.callerSkip.val + 1) ∧
      v2.skipLogger.base.addStack = v.SugaredLogger.base.addStack) ∧
    (∃ (l0 : Ptr) (w0 : World) (v0 : ZapEventLogger),
      WithSkip w l (GoInt.ofInt 0) = .ok (l0, w0) ∧ w0.heap[l0]? = some v0 ∧
      v0.system = v.system ∧ v0.SugaredLogger = v.SugaredLogger ∧
      (v.WellFormed → v0 = v)) ∧
    (∃ (la : Ptr) (wa : World) (lb : Ptr) (wb : World) (lc : Ptr) (wc : World)
        (vb : ZapEventLogger),
      WithSkip w l a = .ok (la, wa) ∧ WithSkip wa la b = .ok (lb, wb) ∧
      WithSkip w l (a.add b) = .ok (lc, wc) ∧
      wb.heap[lb]? = some vb ∧ wc.heap[lc]? = some vb) ∧
    (∀ (env : Config) (u : World) (name : String) (ds : List Derivation),
      ∃ (l1 : Ptr) (w1 : World) (v1 : ZapEventLogger) (l0 : Ptr) (w0 : World),
        derive (Logger env u name).2 (Logger env u name).1 ds = .ok (l1, w1) ∧
        w1.heap[l1]? = some v1 ∧
        WithSkip w1 l1 (GoInt.ofInt 0) = .ok (l0, w0) ∧ w0.heap[l0]? = some v1) := by
  have hmain : ∀ (x : ZapEventLogger) (k : GoInt), (x.withSkip k).SugaredLogger =
      ⟨{ x.SugaredLogger.base with callerSkip := x.SugaredLogger.base.callerSkip.add k }⟩ := by
    intro x k
    simp [ZapEventLogger.withSkip, sugar_addCallerSkip_desugar]
  have hskipL : ∀ (x : ZapEventLogger) (k : GoInt), (x.withSkip k).skipLogger =
      ⟨{ x.SugaredLogger.base with
        callerSkip := (x.SugaredLogger.base.callerSkip.add k).add (GoInt.ofInt 1) }⟩ := by
    intro x k
    simp [ZapEventLogger.withSkip, sugar_addCallerSkip_desugar]
  have hmain0 : ∀ x : ZapEventLogger, (x.withSkip (GoInt.ofInt 0)).SugaredLogger =
      x.SugaredLogger := by
    intro x
    rw [hmain, GoInt.add_zero]
  have zero : ∀ x : ZapEventLogger, x.WellFormed → x.withSkip (GoInt.ofInt 0) = x := by
    intro x hwf
    have h1 := hmain0 x
    have h2 := hskipL x (GoInt.ofInt 0)
    rw [GoInt.add_zero] at h2
    unfold ZapEventLogger.WellFormed at hwf
    rw [sugar_addCallerSkip_desugar] at hwf
    rw [← hwf] at h2
    have h3 : (x.withSkip (GoInt.ofInt 0)).system = x.system := rfl
    cases hx : x.withSkip (GoInt.ofInt 0) with
    | mk m sk sys =>
      rw [hx] at h1 h2 h3
      cases x
      simp only at h1 h2 h3
      subst h1 h2 h3
      rfl
  refine ⟨?_, ?_, ?_, ?_⟩
  · refine ⟨_, _, _, WithSkip_of_get n h, alloc_get _ _, heap_length_ne h, ?_, ?_, ?_, ?_, ?_⟩
    · rw [hmain]; rfl
    · intro hr
      rw [hmain]
      exact wrapInt_of_inRange hr.1 hr.2
    · rw [hmain]
    · rw [hmain, hskipL]; rfl
    · rw [hskipL]
  · exact ⟨_, _, _, WithSkip_of_get (GoInt.ofInt 0) h, alloc_get _ _, rfl, hmain0 v, zero v⟩
  · refine ⟨_, _, _, _, _, _, _, WithSkip_of_get a h,
      WithSkip_of_get b (alloc_get w (v.withSkip a)), WithSkip_of_get (a.add b) h,
      alloc_get _ _, ?_⟩
    have hval : v.withSkip (a.add b) = (v.withSkip a).withSkip b := by
      have e1 := hmain v (a.add b)
      have e2 := hskipL v (a.add b)
      have e3 := hmain (v.withSkip a) b
      have e4 := hskipL (v.withSkip a) b
      rw [hmain v a] at e3 e4
      simp only [GoInt.add_add] at e1 e2 e3 e4
      have e5 : (v.withSkip (a.add b)).system = ((v.withSkip a).withSkip b).system := rfl
      cases hx : v.withSkip (a.add b) with
      | mk m sk sys =>
        cases hy : (v.withSkip a).withSkip b with
        | mk m2 sk2 sys2 =>
          rw [hx] at e1 e2 e5
          rw [hy] at e3 e4 e5
          simp only at e1 e2 e3 e4 e5
          rw [e1, e2, e3, e4, e5]
    rw [← hval]
    exact alloc_get _ _
  · intro env u name ds
    obtain ⟨x, hget, _, hwf, _, _, _⟩ := Logger_handle env u name
    obtain ⟨l1, w1, v1, hder, hget1, hwf1, _, _, _, _, _, _, _, _⟩ := derive_spec ds hget
    refine ⟨l1, w1, v1, _, _, hder, hget1, WithSkip_of_get (GoInt.ofInt 0) hget1, ?_⟩
    have hz := zero v1 (hwf1 hwf)
    have hnew := alloc_get w1 (v1.withSkip (GoInt.ofInt 0))
    rw [hz] at hnew
    rw [hz]
    exact hnew

theorem WithSkip_adds_to_caller_skip_witness :
    netWorld.heap[0]? = some netHandle ∧ netHandle.WellFormed ∧
    (∃ (l2 : Ptr) (w2 : World) (v2 : ZapEventLogger),
      WithSkip netWorld 0 (GoInt.ofInt 3) = .ok (l2, w2) ∧ w2.heap[l2]? = some v2 ∧ l2 ≠ 0 ∧
      v2.SugaredLogger.base.callerSkip.val = 5) ∧
    (∃ (l0 : Ptr) (w0 : World) (v0 : ZapEventLogger),
      WithSkip netWorld 0 (GoInt.ofInt 0) = .ok (l0, w0) ∧ w0.heap[l0]? = some v0 ∧
      v0 = netHandle) :=
  ⟨rfl, rfl,
    match (WithSkip_adds_to_caller_skip netWorld 0 netHandle rfl (GoInt.ofInt 3)
      (GoInt.ofInt 1) (GoInt.ofInt 2)).1 with
    | ⟨l2, w2, v2, hrun, hget, hne, _, hexact, _, _, _⟩ =>
      ⟨l2, w2, v2, hrun, hget, hne, hexact (by decide)⟩,
    match (WithSkip_adds_to_caller_skip netWorld 0 netHandle rfl (GoInt.ofInt 3)
      (GoInt.ofInt 1) (GoInt.ofInt 2)).2.1 with
    | ⟨l0, w0, v0, hrun, hget, _, _, hwf⟩ => ⟨l0, w0, v0, hrun, hget, hwf rfl⟩⟩

/-- C8 fails as stated: `WithSkip(l, 9223372036854775807)` on the handle of
`Logger("net")`, whose main caller skip is 2, gives a main caller skip of
-9223372036854775807, not the sum; and for a live handle whose skip logger is a
plain copy of its main logger, `WithSkip(l, 0)` holds another value than
`l`. -/
theorem WithSkip_wraps_and_rebuilds_skip_logger :
    netWorld.heap[0]? = some netHandle ∧
    netHandle.SugaredLogger.base.callerSkip.val = 2 ∧
    (∃ (l2 : Ptr) (w2 : World) (v2 : ZapEventLogger),
      WithSkip netWorld 0 maxInt = .ok (l2, w2) ∧ w2.heap[l2]? = some v2 ∧
      v2.SugaredLogger.base.callerSkip.val = -9223372036854775807 ∧
      v2.SugaredLogger.base.callerSkip.val ≠
        netHandle.SugaredLogger.base.callerSkip.val + maxInt.val) ∧
    plainWorld.heap[0]? = some plainHandle ∧
    (∃ (l0 : Ptr) (w0 : World) (v0 : ZapEventLogger),
      WithSkip plainWorld 0 (GoInt.ofInt 0) = .ok (l0, w0) ∧ w0.heap[l0]? = some v0 ∧
      v0 ≠ plainHandle) :=
  ⟨rfl, by decide, ⟨_, _, _, rfl, rfl, by decide, by decide⟩, rfl,
    ⟨_, _, _, rfl, rfl, by decide⟩⟩

/-! ## Logger creation and the initial level -/

/-- C1 (amended): for every non-empty subsystem name and every environment
configuration, `NewLogger(name)` returns and the level the registry then
records for `name` is the environment's override for `name` when there is
one, and otherwise Info. -/
theorem NewLogger_level_override_else_info (env : Config) (w : World) (name : String)
    (hname : name ≠ "") :
    ∃ (l : Ptr) (w2 : World), NewLogger env w name = .ok (l, w2) ∧
      w2.levels name = some (match env.SubsystemLevels name with
        | some lvl => lvl
        | none => LogLevel.Info) := by
  obtain ⟨cur, hcur⟩ := Logger_levels_nonempty env w hname
  cases hov : env.SubsystemLevels name with
  | none => exact ⟨_, _, NewLogger_of_no_override hov, by simp [mapSet]⟩
  | some lvl => exact ⟨_, _, NewLogger_of_override hov hcur, by simp [mapSet]⟩

theorem NewLogger_level_override_else_info_witness :
    "disk" ≠ "" ∧
    ∃ (l : Ptr) (w2 : World), NewLogger exampleConfig World.empty "disk" = .ok (l, w2) ∧
      w2.levels "disk" = some (match exampleConfig.SubsystemLevels "disk" with
        | some lvl => lvl
        | none => LogLevel.Info) :=
  ⟨by decide, NewLogger_level_override_else_info exampleConfig World.empty "disk" (by decide)⟩

/-- C1 fails as stated: under the spec's example environment (default level
error, "net" overridden to debug) the name "disk" has no override, and after
`NewLogger("disk")` the registry records Info for it, not the environment's
default level Error. -/
theorem NewLogger_ignores_env_default :
    exampleConfig.SubsystemLevels "disk" = none ∧
    exampleConfig.Level = LogLevel.Error ∧
    levelAfter (NewLogger exampleConfig World.empty "disk") "disk" = some LogLevel.Info ∧
    levelAfter (NewLogger exampleConfig World.empty "disk") "disk" ≠
      some exampleConfig.Level := by
  decide

/-- C9 is violated by the code: the comment on `NewLogger` promises a logger
with info level, but under the spec's example environment, which overrides
"net" to debug, `NewLogger("net")` returns and leaves Debug as the level
recorded for "net", not Info. -/
theorem NewLogger_override_not_info :
    exampleConfig.SubsystemLevels "net" = some LogLevel.Debug ∧
    ∃ (l : Ptr) (w2 : World), NewLogger exampleConfig World.empty "net" = .ok (l, w2) ∧
      w2.levels "net" = some LogLevel.Debug ∧
      w2.levels "net" ≠ some LogLevel.Info :=
  ⟨rfl, _, _, rfl, rfl, by decide⟩

/-- C2 (amended): for every subsystem name, every environment configuration
with no override for that name, and every token the level parser rejects,
`NewLoggerWithLevel(name, token)` panics with the parser's error. -/
theorem NewLoggerWithLevel_panics_on_rejected_token (env : Config) (w : World)
    (name token : String) (e : LogError)
    (hov : env.SubsystemLevels name = none)
    (hrej : LevelFromString token = .error e) :
    NewLoggerWithLevel env w name token = .error (Panic.err e) :=
  NewLoggerWithLevel_of_rejected hov hrej

theorem NewLoggerWithLevel_panics_on_rejected_token_witness :
    exampleConfig.SubsystemLevels "disk" = none ∧
    LevelFromString "bogus" = .error (LogError.InvalidLevel "bogus") ∧
    NewLoggerWithLevel exampleConfig World.empty "disk" "bogus" =
      .error (Panic.err (LogError.InvalidLevel "bogus")) :=
  ⟨rfl, rfl, NewLoggerWithLevel_panics_on_rejected_token exampleConfig World.empty "disk" "bogus"
    (LogError.InvalidLevel "bogus") rfl rfl⟩

/-- C2 fails as stated: under the spec's example environment, which overrides
"net", `NewLoggerWithLevel("net", "bogus")` returns a handle and leaves "net"
at Debug although the parser rejects "bogus". -/
theorem NewLoggerWithLevel_override_hides_bad_token :
    LevelFromString "bogus" = .error (LogError.InvalidLevel "bogus") ∧
    ∃ (l : Ptr) (w2 : World),
      NewLoggerWithLevel exampleConfig World.empty "net" "bogus" = .ok (l, w2) ∧
      w2.levels "net" = some LogLevel.Debug :=
  ⟨rfl, _, _, rfl, rfl⟩

/-- C3 is violated at the empty name: when the environment has an override
under the empty name and the registry has no level entry under it, both
`NewLogger("")` and `NewLoggerWithLevel("", "info")` panic on the nil
dereference of `levels[""]`, although "info" is a valid token. -/
theorem empty_name_override_panics :
    LevelFromString "info" = .ok LogLevel.Info ∧
    NewLogger emptyNameConfig World.empty "" = .error Panic.nilDeref ∧
    NewLoggerWithLevel emptyNameConfig World.empty "" "info" = .error Panic.nilDeref :=
  ⟨rfl, rfl, rfl⟩

/-- C10: in `NewLoggerWithLevel` the environment override takes precedence
over the token.  For every non-empty name and every token: if the environment
has an entry for the name, the call returns, the level recorded for the name
is that entry, and the result is the same for every other token, rejected ones
included; if it has no entry and the token parses to a level, the call returns
and the level recorded for the name is that level. -/
theorem NewLoggerWithLevel_override_precedes_token (env : Config) (w : World)
    (name : String) (hname : name ≠ "") (token : String) :
    (∀ lvl : LogLevel, env.SubsystemLevels name = some lvl →
      (∃ (l : Ptr) (w2 : World), NewLoggerWithLevel env w name token = .ok (l, w2) ∧
        w2.levels name = some lvl) ∧
      (∀ token2 : String,
        NewLoggerWithLevel env w name token2 = NewLoggerWithLevel env w name token)) ∧
    (env.SubsystemLevels name = none → ∀ lvl : LogLevel, LevelFromString token = .ok lvl →
      ∃ (l : Ptr) (w2 : World), NewLoggerWithLevel env w name token = .ok (l, w2) ∧
        w2.levels name = some lvl) := by
  obtain ⟨cur, hcur⟩ := Logger_levels_nonempty env w hname
  constructor
  · intro lvl hov
    refine ⟨⟨_, _, NewLoggerWithLevel_of_override token hov hcur, by simp [mapSet]⟩, ?_⟩
    intro token2
    rw [NewLoggerWithLevel_of_override token2 hov hcur,
      NewLoggerWithLevel_of_override token hov hcur]
  · intro hov lvl hparse
    exact ⟨_, _, NewLoggerWithLevel_of_parsed hov hparse, by simp [mapSet]⟩

theorem NewLoggerWithLevel_override_precedes_token_witness :
    "net" ≠ "" ∧ exampleConfig.SubsystemLevels "net" = some LogLevel.Debug ∧
    "disk" ≠ "" ∧ exampleConfig.SubsystemLevels "disk" = none ∧
    LevelFromString "warn" = .ok LogLevel.Warn ∧
    (∃ (l : Ptr) (w2 : World),
      NewLoggerWithLevel exampleConfig World.empty "net" "bogus" = .ok (l, w2) ∧
      w2.levels "net" = some LogLevel.Debug) ∧
    (∃ (l : Ptr) (w2 : World),
      NewLoggerWithLevel exampleConfig World.empty "disk" "warn" = .ok (l, w2) ∧
      w2.levels "disk" = some LogLevel.Warn) :=
  ⟨by decide, rfl, by decide, rfl, rfl,
    ((NewLoggerWithLevel_override_precedes_token exampleConfig World.empty "net" (by decide)
      "bogus").1 LogLevel.Debug rfl).1,
    (NewLoggerWithLevel_override_precedes_token exampleConfig World.empty "disk" (by decide)
      "warn").2 rfl LogLevel.Warn rfl⟩

end GoLog
